import Mathlib

/-!
Verification of the query-parsing-and-conversion orchestration pipeline of the
currency-converter repository (backend/app/services/llm_service.py,
backend/app/services/currency_service.py, backend/app/utils/validators.py).

The Python services are shallowly embedded: the two outbound HTTP dependencies
(the Frankfurter rate service and the LLM API) are modelled as explicit oracle
parameters, Python exceptions become `Except` values, Python floats become
exact rationals (`ℚ`), and the regular-expression scan of
`LLMService._extract_conversions` is implemented as an executable matcher over
`List Char` with the same backtracking-free semantics this particular pattern
has under Python's `re.findall`.
-/

namespace CurrencyAgent

/-! ### Character classes of the regex `(\d+(?:\.\d+)?)\s*([a-zA-Z]{3})\s*(?:to|in)\s*([a-zA-Z]{3})`

`\d`, `[a-zA-Z]` and `\s` restricted to the ASCII inputs the service receives
(Python's `\s` additionally covers `\v`, `\f` and Unicode spaces; the queries
and claims here use plain spaces). -/

def isDigitChar (c : Char) : Bool := 48 ≤ c.toNat && c.toNat ≤ 57

def isAlphaChar (c : Char) : Bool :=
  (65 ≤ c.toNat && c.toNat ≤ 90) || (97 ≤ c.toNat && c.toNat ≤ 122)

def isSpaceChar (c : Char) : Bool :=
  c.toNat = 32 || c.toNat = 9 || c.toNat = 10 || c.toNat = 11 ||
  c.toNat = 12 || c.toNat = 13

/-- Python `str.upper()` on the ASCII letters the code-groups match. -/
def upperChar (c : Char) : Char :=
  if 97 ≤ c.toNat && c.toNat ≤ 122 then Char.ofNat (c.toNat - 32) else c

def upperCode (l : List Char) : String := String.mk (l.map upperChar)

/-! ### The scanner for `LLMService.conversion_pattern`

`re.findall(r'(\d+(?:\.\d+)?)\s*([a-zA-Z]{3})\s*(?:to|in)\s*([a-zA-Z]{3})',
query, re.IGNORECASE)`: at each position try the pattern; on success record the
three groups and continue after the match (non-overlapping), otherwise advance
one character.  For this pattern greedy matching of `\d+`, `(?:\.\d+)?` and
`\s*` agrees with the regex engine's backtracking (each quantified class is
disjoint from what may follow it), so the scanner below is faithful. -/

/-- One regex match: the three capture groups. -/
structure RawMatch where
  amount_str : List Char
  from_code : List Char
  to_code : List Char
deriving DecidableEq, Repr

/-- `(?:\.\d+)?` — the optional fraction, greedy. -/
def matchFrac (l : List Char) : List Char × List Char :=
  match l with
  | [] => ([], [])
  | c :: rest =>
    if c = '.' then
      let ds := rest.takeWhile isDigitChar
      if ds.isEmpty then ([], c :: rest) else ('.' :: ds, rest.dropWhile isDigitChar)
    else ([], c :: rest)

/-- `([a-zA-Z]{3})` — exactly three letters. -/
def matchCode (l : List Char) : Option (List Char × List Char) :=
  match l with
  | a :: b :: c :: rest =>
    if isAlphaChar a && isAlphaChar b && isAlphaChar c then some ([a, b, c], rest)
    else none
  | _ => none

/-- `(?:to|in)` under `re.IGNORECASE`. -/
def matchSep (l : List Char) : Option (List Char) :=
  match l with
  | x :: y :: rest =>
    if (x = 't' || x = 'T') && (y = 'o' || y = 'O') then some rest
    else if (x = 'i' || x = 'I') && (y = 'n' || y = 'N') then some rest
    else none
  | _ => none

/-- Try the whole pattern at the head of `l`; on success return the groups and
the suffix after the match: `\d+` (greedy), the optional fraction, `\s*`, the
source code group, `\s*`, the separator, `\s*`, the target code group. -/
def matchAt (l : List Char) : Option (RawMatch × List Char) :=
  if (l.takeWhile isDigitChar).isEmpty then none
  else
    match matchCode ((matchFrac (l.dropWhile isDigitChar)).2.dropWhile isSpaceChar) with
    | none => none
    | some (c1, r4) =>
      match matchSep (r4.dropWhile isSpaceChar) with
      | none => none
      | some r6 =>
        match matchCode (r6.dropWhile isSpaceChar) with
        | none => none
        | some (c2, r8) =>
          some (⟨l.takeWhile isDigitChar ++ (matchFrac (l.dropWhile isDigitChar)).1, c1, c2⟩, r8)

/-- `re.findall`: scan left to right, non-overlapping.  The fuel argument is a
step bound; every step strictly shortens the text, so `l.length` fuel always
suffices (see `extractConversions`). -/
def findAll : ℕ → List Char → List RawMatch
  | 0, _ => []
  | fuel + 1, l =>
    match matchAt l with
    | some (g, rest) => g :: findAll fuel rest
    | none =>
      match l with
      | [] => []
      | _ :: t => findAll fuel t

/-- `float(amount_str)` for a matched amount group (digits, optionally a dot
and more digits).  Python parses to an IEEE double; the value is modelled as
the exact rational the decimal literal denotes. -/
def digitsToNat (l : List Char) : ℕ :=
  l.foldl (fun n c => 10 * n + (c.toNat - 48)) 0

def parseAmount (l : List Char) : ℚ :=
  let intPart := l.takeWhile isDigitChar
  let rest := l.dropWhile isDigitChar
  match rest with
  | '.' :: fs => (digitsToNat intPart : ℚ) + (digitsToNat fs : ℚ) / (10 : ℚ) ^ fs.length
  | _ => (digitsToNat intPart : ℚ)

/-- The dict `{"amount": float(amount), "from_currency": ..., "to_currency": ...}`
built by `LLMService._extract_conversions`. -/
structure Conversion where
  amount : ℚ
  from_currency : String
  to_currency : String
deriving DecidableEq, Repr

/-- `LLMService._extract_conversions`: one `Conversion` per regex match, amount
parsed as a float, both codes upper-cased, in match order. -/
def extractConversions (query : String) : List Conversion :=
  (findAll query.data.length query.data).map fun m =>
    ⟨parseAmount m.amount_str, upperCode m.from_code, upperCode m.to_code⟩

/-! ### CurrencyService (backend/app/services/currency_service.py)

Python exceptions are modelled as `Except` errors; the exception's class is
kept because `get_historical_rate` raises both `ValueError` and plain
`Exception` and the spec distinguishes validation-style failures. `str(e)` is
the carried message. -/

inductive PyErr where
  | valueError (msg : String)
  | exc (msg : String)
deriving DecidableEq, Repr

/-- `str(e)`. -/
def PyErr.msg : PyErr → String
  | .valueError m => m
  | .exc m => m

/-- The outcome of the single `GET {base}/latest?amount=&from=&to=` issued by
`convert_currency`.  `failure` covers every exception of the HTTP block
(connection error, non-2xx raised by `raise_for_status`, malformed JSON,
missing `"rates"` key): the source's generic `except` treats them all alike.
`ok` carries the parsed `data["rates"]` mapping and `data.get("date", ...)`. -/
inductive LatestReply where
  | failure
  | ok (rates : List (String × ℚ)) (date : Option String)

/-- `CurrencyService.supported_currencies`. -/
def supported_currencies : List String :=
  ["USD", "EUR", "GBP", "JPY", "AUD", "CAD", "CHF", "CNY", "INR",
   "NZD", "SGD", "HKD", "SEK", "KRW", "NOK", "MXN", "BRL", "PLN"]

/-- Python `round(x, n)`.  (On floats Python rounds half to even in binary;
no claim below depends on a tie, so the rational half-up `round` is used.) -/
def roundTo (n : ℕ) (x : ℚ) : ℚ := (round (x * (10 : ℚ) ^ n) : ℤ) / (10 : ℚ) ^ n

/-- The success dict returned by `convert_currency`. -/
structure ConvOk where
  amount : ℚ
  from_currency : String
  to_currency : String
  converted_amount : ℚ
  exchange_rate : ℚ
  date : String
deriving DecidableEq, Repr

/-- `CurrencyService.convert_currency`.  `net` is the rate service, `today`
is `datetime.now().strftime("%Y-%m-%d")`.  All raised errors are `ValueError`:
the two unsupported-code checks raise it directly, and the generic handler
wraps every other exception (network failure, missing rate key, and the
`ZeroDivisionError` of `rate / amount` when `amount = 0`) into
`ValueError(f"Error converting {from_currency} to {to_currency}")`. -/
def convert_currency (net : ℚ → String → String → LatestReply) (today : String)
    (amount : ℚ) (from_currency to_currency : String) : Except PyErr ConvOk :=
  if from_currency ∉ supported_currencies then
    .error (.valueError ("Unsupported source currency: " ++ from_currency))
  else if to_currency ∉ supported_currencies then
    .error (.valueError ("Unsupported target currency: " ++ to_currency))
  else
    match net amount from_currency to_currency with
    | .failure => .error (.valueError ("Error converting " ++ from_currency ++ " to " ++ to_currency))
    | .ok rates date =>
      match rates.lookup to_currency with
      | none => .error (.valueError ("Error converting " ++ from_currency ++ " to " ++ to_currency))
      | some r =>
        if amount = 0 then
          .error (.valueError ("Error converting " ++ from_currency ++ " to " ++ to_currency))
        else
          .ok { amount := amount, from_currency := from_currency, to_currency := to_currency,
                converted_amount := roundTo 2 r, exchange_rate := roundTo 6 (r / amount),
                date := date.getD today }

/-- The HTTP requests `convert_currency` issues: in the source the `GET` is
reached exactly when both membership checks pass, before any amount check
(there is none) and before the response is inspected. -/
def convert_currency_requests (amount : ℚ) (from_currency to_currency : String) :
    List (ℚ × String × String) :=
  if from_currency ∉ supported_currencies then []
  else if to_currency ∉ supported_currencies then []
  else [(amount, from_currency, to_currency)]

/-- One element of the list built by `batch_convert_currencies`: either the
success dict of `convert_currency` or the error dict
`{"error": str(e), "amount": ..., "from_currency": ..., "to_currency": ...}`. -/
inductive BatchEntry where
  | ok (r : ConvOk)
  | err (msg : String) (amount : ℚ) (from_currency to_currency : String)
deriving DecidableEq, Repr

/-- `CurrencyService.batch_convert_currencies`: a sequential loop, one
`try/except` per item, appending a success dict or an error dict — i.e. a map
over the input order. -/
def batch_convert_currencies (net : ℚ → String → String → LatestReply) (today : String)
    (conversions : List (ℚ × String × String)) : List BatchEntry :=
  conversions.map fun c =>
    match convert_currency net today c.1 c.2.1 c.2.2 with
    | .ok r => .ok r
    | .error e => .err e.msg c.1 c.2.1 c.2.2

/-- One element of the aggregate list consumed by
`LLMService._format_multiple_conversions_response`: a success dict or a dict
with an `"error"` key (the formatter reads nothing else of an error dict). -/
inductive ToolEntry where
  | ok (r : ConvOk)
  | err (msg : String) (function_name : String)
deriving DecidableEq, Repr

/-- `CurrencyService.convert_multiple_currencies`.  The body builds the
coroutine list and then evaluates `asyncio.gather(*tasks, ...)`, but
`currency_service.py` never imports `asyncio`, so every call raises
`NameError("name 'asyncio' is not defined")`; the function's own
`except Exception` wraps it into
`Exception(f"Multiple currency conversion failed: {str(e)}")`.  No other
outcome is reachable. -/
def convert_multiple_currencies (_conversions : List Conversion) :
    Except String (List ToolEntry) :=
  .error "Multiple currency conversion failed: name 'asyncio' is not defined"

/-! ### Dates and the date validators (backend/app/utils/validators.py and
the inline validation of `get_historical_rate`) -/

structure Date where
  year : ℕ
  month : ℕ
  day : ℕ
deriving DecidableEq, Repr

/-- Strict calendar-date comparison (`datetime` comparison restricted to the
date part; `strptime` parses to midnight, so for distinct days it agrees with
the source's `parsed_date > datetime.now()` and `parsed_date.date() > date.today()`). -/
def dateLt (a b : Date) : Bool :=
  a.year < b.year ||
  (a.year = b.year && (a.month < b.month || (a.month = b.month && a.day < b.day)))

def daysInMonth (y m : ℕ) : ℕ :=
  if m = 2 then (if (y % 4 = 0 && y % 100 ≠ 0) || y % 400 = 0 then 29 else 28)
  else if m = 4 || m = 6 || m = 9 || m = 11 then 30 else 31

/-- Split a character list on `'-'`. -/
def splitDash : List Char → List (List Char)
  | [] => [[]]
  | c :: rest =>
    match splitDash rest with
    | [] => [[c]]
    | g :: gs => if c = '-' then [] :: g :: gs else (c :: g) :: gs

def allDigits (l : List Char) : Bool := !l.isEmpty && l.all isDigitChar

/-- `datetime.strptime(date_str, "%Y-%m-%d")`: three dash-separated decimal
fields (`%m`/`%d` take one or two digits, `%Y` up to four) forming a valid
calendar date.  The several `ValueError` message variants strptime produces
are collapsed into the no-parse case; no claim reads those messages. -/
def parseDate (s : String) : Option Date :=
  match splitDash s.data with
  | [ys, ms, ds] =>
    if allDigits ys && allDigits ms && allDigits ds &&
       ys.length ≤ 4 && ms.length ≤ 2 && ds.length ≤ 2 then
      let y := digitsToNat ys
      let m := digitsToNat ms
      let d := digitsToNat ds
      if 1 ≤ m && m ≤ 12 && 1 ≤ d && d ≤ daysInMonth y m then some ⟨y, m, d⟩ else none
    else none
  | _ => none

/-- The decimal form Python prints for the floats that appear in messages and
responses (`f"{x}"`): sign, integer part, a dot, then the fraction digits (one
`0` when the value is integral).  Exact IEEE-double shortest-repr is out of
scope; no claim compares a digit string this function produces. -/
def fracDigits : ℕ → ℕ → ℕ → List Char
  | 0, _, _ => []
  | _ + 1, 0, _ => []
  | f + 1, r, d => Char.ofNat (48 + (r * 10) / d) :: fracDigits f ((r * 10) % d) d

def ratRepr (q : ℚ) : String :=
  let sign := if q < 0 then "-" else ""
  let n := q.num.natAbs
  let fs := fracDigits 20 (n % q.den) q.den
  sign ++ toString (n / q.den) ++ "." ++ (if fs.isEmpty then "0" else String.mk fs)

/-- `CurrencyValidator.validate_amount`.  The `None` and non-number checks of
the source cannot fire for a `ℚ` argument. -/
def validate_amount (amount : ℚ) : Except String ℚ :=
  if amount ≤ 0 then .error ("Amount must be positive: " ++ ratRepr amount)
  else if amount > 1000000000000 then .error ("Amount is too large: " ++ ratRepr amount)
  else .ok amount

/-- The regex `^\d{4}-\d{2}-\d{2}$` of `DateValidator.validate_date_string`. -/
def matchesDatePattern (s : String) : Bool :=
  match s.data with
  | [a, b, c, d, h1, e, f, h2, g, i] =>
    isDigitChar a && isDigitChar b && isDigitChar c && isDigitChar d && h1 = '-' &&
    isDigitChar e && isDigitChar f && h2 = '-' && isDigitChar g && isDigitChar i
  | _ => false

/-- `DateValidator.validate_date_string` (`today` is `date.today()`): pattern
check, parse, future check, and the fixed historical floor 1999-01-04. -/
def validate_date_string (today : Date) (date_str : String) : Except String String :=
  if date_str.isEmpty then .error "Date cannot be empty"
  else if !matchesDatePattern date_str then
    .error ("Date must be in YYYY-MM-DD format: " ++ date_str)
  else
    match parseDate date_str with
    | none => .error ("Invalid date: " ++ date_str)
    | some d =>
      if dateLt today d then .error ("Date cannot be in the future: " ++ date_str)
      else if dateLt d ⟨1999, 1, 4⟩ then
        .error ("Date cannot be earlier than 1999-01-04: " ++ date_str)
      else .ok date_str

/-! ### `CurrencyService.get_historical_rate` -/

/-- The outcome of `GET {base}/{date}?from=&to=`: a non-2xx status raised by
`raise_for_status` (carrying `response.status_code` and text used for
`str(e)`/`e.response.text`), any other exception of the HTTP block, or the
parsed JSON body. -/
inductive HistReply where
  | httpError (status : ℕ) (text : String)
  | failure (msg : String)
  | ok (rates : List (String × ℚ)) (date : String)

structure HistOk where
  date : String
  from_currency : String
  to_currency : String
  exchange_rate : ℚ
deriving DecidableEq, Repr

/-- Python `str.upper()` (ASCII). -/
def upperStr (s : String) : String := String.mk (s.data.map upperChar)

/-- `CurrencyService.get_historical_rate`.  The inline date validation: a
parse failure becomes `ValueError("Invalid date format. Use YYYY-MM-DD")` via
the inner handler, a future date raises
`ValueError("Cannot get exchange rates for future dates")`; both propagate to
the outer generic handler which re-wraps them in
`Exception(f"Failed to fetch historical rate: {str(e)}")`.  There is no check
against the service's earliest available date.  A 400 status raised inside the
`HTTPStatusError` handler surfaces as `ValueError(f"Invalid request: ...")`;
other statuses as `Exception(f"Historical rate service error: ...")`. -/
def get_historical_rate (net : String → String → String → HistReply) (today : Date)
    (date_str from_currency to_currency : String) : Except PyErr HistOk :=
  let fc := upperStr from_currency
  let tc := upperStr to_currency
  match parseDate date_str with
  | none => .error (.exc "Failed to fetch historical rate: Invalid date format. Use YYYY-MM-DD")
  | some d =>
    if dateLt today d then
      .error (.exc "Failed to fetch historical rate: Cannot get exchange rates for future dates")
    else
      match net date_str fc tc with
      | .httpError status text =>
        if status = 400 then .error (.valueError ("Invalid request: " ++ text))
        else .error (.exc ("Historical rate service error: " ++ text))
      | .failure msg => .error (.exc ("Failed to fetch historical rate: " ++ msg))
      | .ok rates rdate =>
        match rates.lookup tc with
        | none =>
          .error (.exc ("Failed to fetch historical rate: Exchange rate not available for "
            ++ fc ++ " to " ++ tc ++ " on " ++ date_str))
        | some r => .ok { date := rdate, from_currency := fc, to_currency := tc, exchange_rate := r }

/-- The HTTP requests `get_historical_rate` issues: the `GET` is reached
exactly when the date parses and is not in the future — in particular also for
every date before the service's 1999-01-04 floor. -/
def get_historical_rate_requests (today : Date) (date_str from_currency to_currency : String) :
    List (String × String × String) :=
  match parseDate date_str with
  | none => []
  | some d =>
    if dateLt today d then []
    else [(date_str, upperStr from_currency, upperStr to_currency)]

/-! ### LLMService (backend/app/services/llm_service.py) -/

/-- `app.utils.function_schemas.SYSTEM_PROMPT`. -/
def SYSTEM_PROMPT : String :=
  "You are a helpful currency conversion assistant. You can:\n\n1. Convert currencies using real-time exchange rates\n2. Handle multiple currency conversions in a single request\n3. Provide information about supported currencies\n4. Get historical exchange rates for specific dates\n\nAlways provide clear, accurate information about currency conversions. When multiple conversions are requested, process all of them and present the results clearly.\n\nIf a user asks about something unrelated to currency conversion, politely redirect them to currency-related topics.\n\nFormat your responses in a clear, user-friendly manner with:\n- The original amount and currency\n- The converted amount and target currency\n- The exchange rate used\n- The date of the exchange rate\n\nFor multiple conversions, present each conversion in a separate, clearly marked section."

/-- A conversation message `{"role": ..., "content": ...}`. -/
structure Message where
  role : String
  content : String
deriving DecidableEq, Repr

/-- The decoded arguments of a tool call (`json.loads` result).  `none` fields
model missing keys, whose access raises `KeyError`. -/
structure ArgVals where
  amount : Option ℚ
  from_currency : Option String
  to_currency : Option String
  date : Option String
deriving DecidableEq, Repr

/-- `tool_call["function"]["arguments"]` after `json.loads`: either the raise
of `json.loads` (carrying `str(e)`) or the decoded mapping. -/
inductive ToolArgs where
  | malformed (msg : String)
  | ok (vals : ArgVals)
deriving DecidableEq, Repr

/-- One entry of `message["tool_calls"]`: `function.name` and the arguments. -/
structure ToolCall where
  function_name : String
  arguments : ToolArgs
deriving DecidableEq, Repr

/-- `str(KeyError(k))` — Python reprs the missing key. -/
def keyError (k : String) : String := "'" ++ k ++ "'"

/-- `LLMService._format_multiple_conversions_response`, per-entry section.
`i` is the 1-based label index. -/
def formatEntry (i : ℕ) (e : ToolEntry) : String :=
  match e with
  | .err msg _ => "**Conversion " ++ toString i ++ ":**\n❌ Error: " ++ msg ++ "\n"
  | .ok r =>
    "**Conversion " ++ toString i ++ ":**\n💰 " ++ ratRepr r.amount ++ " " ++ r.from_currency
      ++ " = **" ++ ratRepr r.converted_amount ++ " " ++ r.to_currency
      ++ "**\n📊 Exchange Rate: 1 " ++ r.from_currency ++ " = " ++ ratRepr r.exchange_rate
      ++ " " ++ r.to_currency ++ "\n📅 Rate Date: " ++ r.date ++ "\n"

def formatEntriesFrom (i : ℕ) : List ToolEntry → List String
  | [] => []
  | e :: es => formatEntry i e :: formatEntriesFrom (i + 1) es

/-- `LLMService._format_multiple_conversions_response`. -/
def format_multiple_conversions_response (results : List ToolEntry) : String :=
  if results.isEmpty then "I couldn't process any conversions from your request."
  else String.intercalate "\n" (formatEntriesFrom 1 results)

/-- Insertion into a code-sorted association list, for Python's
`sorted(currencies.items())` (keys are unique, so sorting the pairs sorts by
code). -/
def insertSorted (x : String × String) : List (String × String) → List (String × String)
  | [] => [x]
  | y :: ys => if x.1 ≤ y.1 then x :: y :: ys else y :: insertSorted x ys

def sortByCode (l : List (String × String)) : List (String × String) :=
  l.foldr insertSorted []

/-- `LLMService._format_supported_currencies`. -/
def format_supported_currencies (currencies : List (String × String)) : String :=
  "Here are the supported currencies:\n\n" ++
    String.intercalate "\n" ((sortByCode currencies).map fun p => "• **" ++ p.1 ++ "** - " ++ p.2)

/-- `LLMService._format_historical_rate`. -/
def format_historical_rate (rd : HistOk) : String :=
  "**Historical Exchange Rate**\n📅 Date: " ++ rd.date ++ "\n💱 1 " ++ rd.from_currency
    ++ " = " ++ ratRepr rd.exchange_rate ++ " " ++ rd.to_currency ++ "\n"

/-- `CurrencyService.get_supported_currencies`: the `GET {base}/currencies`
outcome (`cur`), with every exception wrapped by the function's handler. -/
def get_supported_currencies (cur : Except String (List (String × String))) :
    Except PyErr (List (String × String)) :=
  match cur with
  | .ok m => .ok m
  | .error e => .error (.exc ("Failed to fetch supported currencies: " ++ e))

/-- `response.json()["choices"][0]["message"]` of the LLM call, or its two
failure modes: `httpStatusError` is the `httpx.HTTPStatusError` raised by
`raise_for_status` (non-2xx), `failure` is any other exception of the block
(connection error, malformed JSON, missing keys). -/
inductive LLMReply where
  | httpStatusError
  | failure
  | message (content : Option String) (tool_calls : List ToolCall)

/-- The environment of the services: the two outbound HTTP dependencies and
the current date, fixed for one run.  `llm` maps the message list POSTed to
`{base}/chat/completions` to the (already JSON-decoded) reply. -/
structure Env where
  net : ℚ → String → String → LatestReply
  todayStr : String
  todayDate : Date
  currenciesReply : Except String (List (String × String))
  histNet : String → String → String → HistReply
  llm : List Message → LLMReply

/-- The outcome of one iteration of the `_handle_tool_calls` loop: entries
appended to `results`, or an early `return` (successful
`get_supported_currencies` / `get_historical_rate` dispatch). -/
inductive StepResult where
  | entries (es : List ToolEntry)
  | earlyReturn (s : String)

/-- One iteration of the `for tool_call in tool_calls` loop of
`LLMService._handle_tool_calls`: decode the arguments (a `json.loads` raise is
caught and appended as `{"error": str(e), "function": function_name}`),
dispatch on `function_name` — an unrecognized name falls through the
`if`/`elif` chain and contributes nothing — and catch any exception of the
dispatched call as an error entry.  Argument keys are read in source order, so
the first missing key names the `KeyError`. -/
def toolStep (env : Env) (tc : ToolCall) : StepResult :=
  match tc.arguments with
  | .malformed msg => .entries [.err msg tc.function_name]
  | .ok args =>
    if tc.function_name = "convert_currency" then
      match args.amount with
      | none => .entries [.err (keyError "amount") tc.function_name]
      | some a =>
        match args.from_currency with
        | none => .entries [.err (keyError "from_currency") tc.function_name]
        | some f =>
          match args.to_currency with
          | none => .entries [.err (keyError "to_currency") tc.function_name]
          | some t =>
            match convert_currency env.net env.todayStr a f t with
            | .ok r => .entries [.ok r]
            | .error e => .entries [.err e.msg tc.function_name]
    else if tc.function_name = "get_supported_currencies" then
      match get_supported_currencies env.currenciesReply with
      | .ok m => .earlyReturn (format_supported_currencies m)
      | .error e => .entries [.err e.msg tc.function_name]
    else if tc.function_name = "get_historical_rate" then
      match args.date with
      | none => .entries [.err (keyError "date") tc.function_name]
      | some d =>
        match args.from_currency with
        | none => .entries [.err (keyError "from_currency") tc.function_name]
        | some f =>
          match args.to_currency with
          | none => .entries [.err (keyError "to_currency") tc.function_name]
          | some t =>
            match get_historical_rate env.histNet env.todayDate d f t with
            | .ok rd => .earlyReturn (format_historical_rate rd)
            | .error e => .entries [.err e.msg tc.function_name]
    else .entries []

/-- The `_handle_tool_calls` loop over the calls, accumulating `results`. -/
def run_tool_calls (env : Env) : List ToolCall → List ToolEntry → Sum String (List ToolEntry)
  | [], acc => .inr acc
  | tc :: rest, acc =>
    match toolStep env tc with
    | .earlyReturn s => .inl s
    | .entries es => run_tool_calls env rest (acc ++ es)

/-- `LLMService._handle_tool_calls`. -/
def handle_tool_calls (env : Env) (tool_calls : List ToolCall) : String :=
  match run_tool_calls env tool_calls [] with
  | .inl s => s
  | .inr [] => "I couldn't execute the requested function calls."
  | .inr results => format_multiple_conversions_response results

/-- `conversation_history[-10:]`. -/
def lastN (n : ℕ) (l : List α) : List α := l.drop (l.length - n)

/-- `LLMService._process_with_llm`: build the message list (system prompt,
last ten history messages, the user query), POST it, and handle the reply.
The two fixed fallback strings correspond to the function's two `except`
clauses. -/
def process_with_llm (env : Env) (query : String) (conversation_history : List Message) : String :=
  let messages := ⟨"system", SYSTEM_PROMPT⟩ :: lastN 10 conversation_history
    ++ [⟨"user", query⟩]
  match env.llm messages with
  | .httpStatusError => "I'm having trouble connecting to the AI service. Please try again."
  | .failure => "I encountered an error processing your request. Please try again."
  | .message content tool_calls =>
    if !tool_calls.isEmpty then handle_tool_calls env tool_calls
    else content.getD "I couldn't process your request."

/-- `LLMService.process_query`: extract conversions with the regex; one or
more matches take the deterministic fast path (`convert_multiple_currencies`
then the formatter), zero matches escalate to the LLM.  The enclosing
`try/except` turns any exception `e` into
`f"I apologize, but I encountered an error processing your request: {str(e)}"`. -/
def process_query (env : Env) (query : String) (conversation_history : List Message) : String :=
  let conversions := extractConversions query
  if conversions.length ≥ 1 then
    match convert_multiple_currencies conversions with
    | .ok results => format_multiple_conversions_response results
    | .error e => "I apologize, but I encountered an error processing your request: " ++ e
  else
    process_with_llm env query conversation_history

/-! ### Concrete service environments used to instantiate the theorems -/

/-- A rate service that is unreachable (every request raises). -/
def netFail : ℚ → String → String → LatestReply := fun _ _ _ => .failure

/-- A rate service answering every `/latest` request with rate `0.9` for the
target code and date `2024-01-15`. -/
def net09 : ℚ → String → String → LatestReply :=
  fun _ _ t => .ok [(t, (9 : ℚ) / 10)] (some "2024-01-15")

/-- A historical-rate service answering every request with rate `1.1` for EUR
and echoing the requested date. -/
def histNet98 : String → String → String → HistReply :=
  fun ds _ _ => .ok [("EUR", (11 : ℚ) / 10)] ds

/-- An environment in which both outbound dependencies fail. -/
def envFail : Env :=
  { net := netFail, todayStr := "2024-01-15", todayDate := ⟨2024, 1, 15⟩,
    currenciesReply := .error "connection error",
    histNet := fun _ _ _ => .failure "connection error",
    llm := fun _ => .failure }

/-- `envFail` with the working rate service `net09`. -/
def env09 : Env := { envFail with net := net09 }

/-- The text of an optional fraction group: nothing, or a dot and its digits. -/
def fracPart : Option (List Char) → List Char
  | none => []
  | some fs => '.' :: fs

/-- The rational value of an optional fraction group. -/
def fracVal : Option (List Char) → ℚ
  | none => 0
  | some fs => (digitsToNat fs : ℚ) / (10 : ℚ) ^ fs.length

/-- A text of the shape `<number> <3-letter-code> <sep> <3-letter-code>`:
integer digits `ds`, optional fraction digits `ofs`, codes `a b c` and
`d e f`, separator letters `s1 s2`, single spaces between the fields. -/
def shapeText (ds : List Char) (ofs : Option (List Char)) (a b c d e f s1 s2 : Char) :
    List Char :=
  ds ++ fracPart ofs ++ ' ' :: a :: b :: c :: ' ' :: s1 :: s2 :: ' ' :: [d, e, f]

/-! ## Theorems -/

/-- C1 (code bug): for the input "Convert 100 USD to EUR" the extractor does
find the conversion and `process_query` takes the deterministic fast path, but
`convert_multiple_currencies` always raises `NameError` (`currency_service.py`
never imports `asyncio`), so for every environment — in particular one whose
rate service would return 85.0 EUR for 100 USD — the orchestrator returns the
generic apology error text instead of a formatted success response. -/
theorem process_query_fast_path_asyncio_error (env : Env) :
    process_query env "Convert 100 USD to EUR" [] =
      "I apologize, but I encountered an error processing your request: Multiple currency conversion failed: name 'asyncio' is not defined" := by
  rfl

/-- C6 (code bug): `convert_currency` has no special case for equal source and
target codes: the identity conversion `convert(100, "USD", "USD")` issues a
live request to the rate service (the request list is non-empty) and, when the
service is unreachable, returns a failure rather than the identity success the
repository's own test `test_convert_same_currency` expects. -/
theorem convert_currency_identity_needs_network :
    convert_currency netFail "2024-01-15" 100 "USD" "USD" =
      .error (.valueError "Error converting USD to USD") ∧
    convert_currency_requests 100 "USD" "USD" = [(100, "USD", "USD")] :=
  ⟨rfl, rfl⟩

/-- C3 (counterexample): with `amount = -5` and a working rate service,
`convert_currency` issues the network request and returns a *Success* — no
validation failure occurs and the network call is attempted, contradicting the
claim that `amount ≤ 0` yields a validation Failure with no network call. -/
theorem convert_currency_negative_amount_counterexample :
    convert_currency net09 "2024-01-15" (-5) "USD" "EUR" =
      .ok ⟨-5, "USD", "EUR", 9 / 10, -9 / 50, "2024-01-15"⟩ ∧
    convert_currency_requests (-5) "USD" "EUR" = [(-5, "USD", "EUR")] := by
  constructor
  · unfold convert_currency
    norm_num [net09, supported_currencies, List.lookup, roundTo, round_eq]
  · rfl

/-- C3 (amended): the Rate Client's convert operation performs no amount
validation at all — for any amount, including `amount ≤ 0`, with both codes
supported it issues the network request; the standalone validator
`CurrencyValidator.validate_amount` does reject non-positive amounts, but
`convert_currency` never calls it. -/
theorem convert_currency_skips_amount_validation (amount : ℚ) (from_c to_c : String)
    (h1 : from_c ∈ supported_currencies) (h2 : to_c ∈ supported_currencies)
    (h3 : amount ≤ 0) :
    convert_currency_requests amount from_c to_c = [(amount, from_c, to_c)] ∧
    validate_amount amount = .error ("Amount must be positive: " ++ ratRepr amount) := by
  constructor
  · unfold convert_currency_requests
    rw [if_neg (by simp [h1]), if_neg (by simp [h2])]
  · unfold validate_amount
    rw [if_pos h3]

theorem convert_currency_skips_amount_validation_witness :
    convert_currency_requests (-5) "USD" "EUR" = [(-5, "USD", "EUR")] ∧
    validate_amount (-5) = .error ("Amount must be positive: " ++ ratRepr (-5)) :=
  convert_currency_skips_amount_validation (-5) "USD" "EUR" (by decide) (by decide)
    (by norm_num)

/-- C5: when the extractor finds no conversion the orchestrator escalates to
the LLM path, and if the LLM call fails — `raise_for_status` throwing on a
non-2xx status, or any other exception (connection error, malformed reply) —
`process_query` returns one of exactly two fixed apologetic strings; no
exception propagates (in the embedding every handler is a total branch). -/
theorem process_query_llm_failure_two_fallbacks (env : Env) (query : String)
    (history : List Message)
    (hempty : extractConversions query = [])
    (hfail : ∀ msgs, env.llm msgs = .httpStatusError ∨ env.llm msgs = .failure) :
    process_query env query history =
      "I'm having trouble connecting to the AI service. Please try again." ∨
    process_query env query history =
      "I encountered an error processing your request. Please try again." := by
  have hpq : process_query env query history = process_with_llm env query history := by
    unfold process_query
    rw [hempty]
    rfl
  rw [hpq]
  rcases hfail (⟨"system", SYSTEM_PROMPT⟩ :: lastN 10 history ++ [⟨"user", query⟩]) with h | h
  · exact Or.inl (by simp only [process_with_llm]; rw [h])
  · exact Or.inr (by simp only [process_with_llm]; rw [h])

theorem process_query_llm_failure_two_fallbacks_witness :
    process_query envFail "What is the weather today" [] =
      "I'm having trouble connecting to the AI service. Please try again." ∨
    process_query envFail "What is the weather today" [] =
      "I encountered an error processing your request. Please try again." :=
  process_query_llm_failure_two_fallbacks envFail "What is the weather today" []
    (by rfl) (fun _ => Or.inr rfl)

/-- C8: a text in which the pattern scan finds zero matches makes the
extractor return the empty list — the signal to escalate — and (the embedding
being a total function) no error is raised. -/
theorem extract_zero_matches_empty (query : String)
    (h : findAll query.data.length query.data = []) :
    extractConversions query = [] := by
  unfold extractConversions
  rw [h]
  rfl

theorem extract_zero_matches_empty_witness :
    extractConversions "What is the weather today" = [] :=
  extract_zero_matches_empty "What is the weather today" (by rfl)

/-- C10: whenever the extractor finds at least one conversion, `process_query`
takes the deterministic fast path, which never reads the conversation history:
runs against the same environment with different histories return identical
text. -/
theorem process_query_ignores_history (env : Env) (query : String)
    (h1 h2 : List Message) (hne : extractConversions query ≠ []) :
    process_query env query h1 = process_query env query h2 := by
  have hlen : (extractConversions query).length ≥ 1 := by
    cases h : extractConversions query with
    | nil => exact absurd h hne
    | cons x t => simp [h]
  unfold process_query
  rw [if_pos hlen, if_pos hlen]

/-- Every success of `convert_currency` echoes the request's amount and codes. -/
theorem convert_currency_ok_fields {net : ℚ → String → String → LatestReply} {today : String}
    {amount : ℚ} {f t : String} {r : ConvOk}
    (h : convert_currency net today amount f t = .ok r) :
    r.amount = amount ∧ r.from_currency = f ∧ r.to_currency = t := by
  unfold convert_currency at h
  split at h
  · cases h
  · split at h
    · cases h
    · split at h
      · cases h
      · split at h
        · cases h
        · split at h
          · cases h
          · injection h with h2
            subst h2
            exact ⟨rfl, rfl, rfl⟩

/-- An unsupported source or target code makes `convert_currency` fail fast
with a `ValueError`. -/
theorem convert_currency_unsupported (net : ℚ → String → String → LatestReply)
    (today : String) (amount : ℚ) (f t : String)
    (h : f ∉ supported_currencies ∨ t ∉ supported_currencies) :
    ∃ msg, convert_currency net today amount f t = .error (.valueError msg) := by
  unfold convert_currency
  by_cases hf : f ∉ supported_currencies
  · rw [if_pos hf]
    exact ⟨_, rfl⟩
  · have ht : t ∉ supported_currencies := by
      rcases h with h | h
      · exact absurd h hf
      · exact h
    rw [if_neg hf, if_pos ht]
    exact ⟨_, rfl⟩

/-- C2: `batch_convert_currencies` is a per-item loop with one `try/except`
per item: when item `k` carries an unsupported currency code and every other
item converts successfully, the output has exactly the input's length, entry
`k` is the error dict carrying item `k`'s fields, and every other entry is the
success dict of its own input item — the failure of item `k` does not prevent
the remaining items from being attempted. -/
theorem batch_convert_isolation (net : ℚ → String → String → LatestReply) (today : String)
    (convs : List (ℚ × String × String)) (k : ℕ) (ck : ℚ × String × String)
    (hck : convs[k]? = some ck)
    (hbad : ck.2.1 ∉ supported_currencies ∨ ck.2.2 ∉ supported_currencies)
    (hok : ∀ i c, i ≠ k → convs[i]? = some c →
      ∃ r, convert_currency net today c.1 c.2.1 c.2.2 = .ok r) :
    (batch_convert_currencies net today convs).length = convs.length ∧
    (∃ msg, (batch_convert_currencies net today convs)[k]? =
      some (.err msg ck.1 ck.2.1 ck.2.2)) ∧
    (∀ i c, i ≠ k → convs[i]? = some c →
      ∃ r, (batch_convert_currencies net today convs)[i]? = some (.ok r) ∧
        r.amount = c.1 ∧ r.from_currency = c.2.1 ∧ r.to_currency = c.2.2) := by
  refine ⟨List.length_map _ _, ?_, ?_⟩
  · obtain ⟨msg, hmsg⟩ := convert_currency_unsupported net today ck.1 ck.2.1 ck.2.2 hbad
    refine ⟨msg, ?_⟩
    unfold batch_convert_currencies
    rw [List.getElem?_map, hck]
    simp [hmsg, PyErr.msg]
  · intro i c hi hc
    obtain ⟨r, hr⟩ := hok i c hi hc
    obtain ⟨h1, h2, h3⟩ := convert_currency_ok_fields hr
    refine ⟨r, ?_, h1, h2, h3⟩
    unfold batch_convert_currencies
    rw [List.getElem?_map, hc]
    simp [hr]

theorem batch_convert_isolation_witness :
    (batch_convert_currencies net09 "2024-01-15"
      [(100, "USD", "EUR"), (50, "ABC", "JPY"), (10, "GBP", "USD")]).length = 3 ∧
    (∃ msg, (batch_convert_currencies net09 "2024-01-15"
      [(100, "USD", "EUR"), (50, "ABC", "JPY"), (10, "GBP", "USD")])[1]? =
        some (.err msg 50 "ABC" "JPY")) ∧
    (∀ i c, i ≠ 1 →
      [((100 : ℚ), "USD", "EUR"), (50, "ABC", "JPY"), (10, "GBP", "USD")][i]? = some c →
      ∃ r, (batch_convert_currencies net09 "2024-01-15"
        [(100, "USD", "EUR"), (50, "ABC", "JPY"), (10, "GBP", "USD")])[i]? = some (.ok r) ∧
        r.amount = c.1 ∧ r.from_currency = c.2.1 ∧ r.to_currency = c.2.2) := by
  refine batch_convert_isolation net09 "2024-01-15"
    [(100, "USD", "EUR"), (50, "ABC", "JPY"), (10, "GBP", "USD")] 1 (50, "ABC", "JPY")
    rfl (by decide) ?_
  intro i c hi hc
  match i, hc with
  | 0, hc =>
    cases hc
    exact ⟨⟨100, "USD", "EUR", 9 / 10, 9 / 1000, "2024-01-15"⟩, by
      unfold convert_currency
      norm_num [net09, supported_currencies, List.lookup, roundTo, round_eq]⟩
  | 1, hc => exact absurd rfl hi
  | i + 2, hc =>
    match i, hc with
    | 0, hc =>
      cases hc
      exact ⟨⟨10, "GBP", "USD", 9 / 10, 9 / 100, "2024-01-15"⟩, by
        unfold convert_currency
        norm_num [net09, supported_currencies, List.lookup, roundTo, round_eq]⟩

/-- C4 (counterexample): a tool call naming an unrecognized function (with
well-formed arguments) falls through the `if`/`elif` chain of
`_handle_tool_calls` and contributes *no* entry at all — the loop's result
list stays empty and the aggregate is the fixed no-calls string — not the one
error entry the claim requires. -/
theorem handle_tool_calls_unknown_function_counterexample :
    run_tool_calls envFail [⟨"make_coffee", .ok ⟨some 100, some "USD", some "EUR", none⟩⟩] []
      = .inr [] ∧
    handle_tool_calls envFail [⟨"make_coffee", .ok ⟨some 100, some "USD", some "EUR", none⟩⟩]
      = "I couldn't execute the requested function calls." :=
  ⟨rfl, rfl⟩

/-- C4 (amended): per-call isolation in `_handle_tool_calls` holds in this
form: a tool call whose arguments fail to decode contributes exactly one error
entry and the remaining calls are still dispatched, while a tool call naming
an unrecognized function contributes no entry at all (it is silently skipped)
and the remaining calls are still dispatched. -/
theorem tool_call_isolation (env : Env) (tc : ToolCall) (rest : List ToolCall)
    (acc : List ToolEntry) (msg : String) :
    (tc.arguments = .malformed msg →
      run_tool_calls env (tc :: rest) acc =
        run_tool_calls env rest (acc ++ [.err msg tc.function_name])) ∧
    (∀ vals, tc.arguments = .ok vals →
      tc.function_name ≠ "convert_currency" →
      tc.function_name ≠ "get_supported_currencies" →
      tc.function_name ≠ "get_historical_rate" →
      run_tool_calls env (tc :: rest) acc = run_tool_calls env rest acc) := by
  constructor
  · intro h
    simp [run_tool_calls, toolStep, h]
  · intro vals h h1 h2 h3
    simp [run_tool_calls, toolStep, h, h1, h2, h3]

/-- C9 (counterexample): `get_historical_rate` never checks the service's
1999-01-04 floor: for the pre-floor date "1998-12-31" (well-formed, not in the
future) it issues the request and, with a service that answers, returns a
successful rate result instead of the validation failure the claim requires.
(The floor lives only in `DateValidator.validate_date_string`, which
`get_historical_rate` does not call.) -/
theorem historical_rate_pre_floor_counterexample :
    get_historical_rate histNet98 ⟨2026, 10, 12⟩ "1998-12-31" "usd" "eur" =
      .ok ⟨"1998-12-31", "USD", "EUR", 11 / 10⟩ ∧
    get_historical_rate_requests ⟨2026, 10, 12⟩ "1998-12-31" "usd" "eur" =
      [("1998-12-31", "USD", "EUR")] :=
  ⟨rfl, rfl⟩

/-- C9 (amended): for a date that parses as `%Y-%m-%d`, `get_historical_rate`
rejects a future date locally — wrapped by the generic handler into a
`Failed to fetch historical rate` failure — without issuing a request; a
non-future date, including any date before the 1999-01-04 floor, always
reaches the network; the floor itself is enforced only by
`DateValidator.validate_date_string`. -/
theorem historical_rate_date_validation (net : String → String → String → HistReply)
    (today : Date) (date_str from_c to_c : String) (d : Date)
    (hparse : parseDate date_str = some d) :
    (dateLt today d = true →
      get_historical_rate net today date_str from_c to_c =
        .error (.exc "Failed to fetch historical rate: Cannot get exchange rates for future dates") ∧
      get_historical_rate_requests today date_str from_c to_c = []) ∧
    (dateLt today d = false →
      get_historical_rate_requests today date_str from_c to_c =
        [(date_str, upperStr from_c, upperStr to_c)]) ∧
    (matchesDatePattern date_str = true → dateLt today d = false →
      dateLt d ⟨1999, 1, 4⟩ = true →
      validate_date_string today date_str =
        .error ("Date cannot be earlier than 1999-01-04: " ++ date_str)) := by
  refine ⟨fun hfut => ⟨?_, ?_⟩, fun hpast => ?_, fun hpat hpast hfloor => ?_⟩
  · simp [get_historical_rate, hparse, hfut]
  · simp [get_historical_rate_requests, hparse, hfut]
  · simp [get_historical_rate_requests, hparse, hpast]
  · have hne : date_str.isEmpty = false := by
      unfold matchesDatePattern at hpat
      cases hs : date_str.data with
      | nil =>
        rw [hs] at hpat
        cases hpat
      | cons x xs =>
        have hne' : date_str ≠ "" := by
          intro h
          rw [h] at hs
          cases hs
        exact Bool.eq_false_iff.mpr fun hemp => hne' ((String.isEmpty_iff date_str).mp hemp)
    simp [validate_date_string, hne, hpat, hparse, hpast, hfloor]

theorem historical_rate_date_validation_witness :
    get_historical_rate histNet98 ⟨2026, 10, 12⟩ "2030-01-01" "USD" "EUR" =
      .error (.exc "Failed to fetch historical rate: Cannot get exchange rates for future dates") ∧
    get_historical_rate_requests ⟨2026, 10, 12⟩ "2030-01-01" "USD" "EUR" = [] :=
  (historical_rate_date_validation histNet98 ⟨2026, 10, 12⟩ "2030-01-01" "USD" "EUR"
    ⟨2030, 1, 1⟩ rfl).1 rfl

theorem process_query_ignores_history_witness :
    process_query envFail "Convert 100 USD to EUR" [] =
      process_query envFail "Convert 100 USD to EUR" [⟨"user", "hello"⟩] :=
  process_query_ignores_history envFail "Convert 100 USD to EUR" [] [⟨"user", "hello"⟩]
    (by decide)

/-- A list all of whose elements satisfy `p` is its own `takeWhile`. -/
theorem takeWhile_all {p : Char → Bool} (xs : List Char)
    (hxs : ∀ x ∈ xs, p x = true) :
    xs.takeWhile p = xs ∧ xs.dropWhile p = [] := by
  induction xs with
  | nil => simp
  | cons a t ih =>
    have ha : p a = true := hxs a (List.mem_cons_self a t)
    have ih2 := ih fun x hx => hxs x (List.mem_cons_of_mem a hx)
    simp [List.takeWhile_cons, List.dropWhile_cons, ha, ih2.1, ih2.2]

/-- `takeWhile`/`dropWhile` split an all-`p` prefix from a suffix whose head
fails `p`. -/
theorem takeWhile_all_append {p : Char → Bool} (xs : List Char) (y : Char) (l : List Char)
    (hxs : ∀ x ∈ xs, p x = true) (hy : p y = false) :
    (xs ++ y :: l).takeWhile p = xs ∧ (xs ++ y :: l).dropWhile p = y :: l := by
  induction xs with
  | nil => simp [List.takeWhile_cons, List.dropWhile_cons, hy]
  | cons a t ih =>
    have ha : p a = true := hxs a (List.mem_cons_self a t)
    have ih2 := ih fun x hx => hxs x (List.mem_cons_of_mem a hx)
    simp [List.takeWhile_cons, List.dropWhile_cons, ha, ih2.1, ih2.2]

/-- A letter is not regex whitespace. -/
theorem not_space_of_alpha {c : Char} (h : isAlphaChar c = true) : isSpaceChar c = false := by
  simp [isAlphaChar, isSpaceChar] at *
  omega

/-- The scan of an empty text finds nothing, whatever the fuel. -/
theorem findAll_nil (fuel : ℕ) : findAll fuel [] = [] := by
  cases fuel <;> rfl

/-- A successful head match contributes its groups and the scan continues
after the match (non-overlapping). -/
theorem findAll_succ_match {fuel : ℕ} {l : List Char} {g : RawMatch} {rest : List Char}
    (h : matchAt l = some (g, rest)) : findAll (fuel + 1) l = g :: findAll fuel rest := by
  simp [findAll, h]

/-- The pattern matches at the head of `l` once `l` splits into a non-empty
digit prefix, an optional fraction, and the spaced code-separator-code tail. -/
theorem matchAt_of_parts (l ds frpre rest : List Char) (a b c d e f s1 s2 : Char)
    (ht : l.takeWhile isDigitChar = ds) (hd : ds ≠ [])
    (hdr : l.dropWhile isDigitChar = rest)
    (hmf : matchFrac rest = (frpre, ' ' :: a :: b :: c :: ' ' :: s1 :: s2 :: ' ' :: [d, e, f]))
    (ha : isAlphaChar a = true) (hb : isAlphaChar b = true) (hc : isAlphaChar c = true)
    (hd2 : isAlphaChar d = true) (he : isAlphaChar e = true) (hf : isAlphaChar f = true)
    (hss1 : isSpaceChar s1 = false)
    (hmsep : ∀ r : List Char, matchSep (s1 :: s2 :: r) = some r) :
    matchAt l = some (⟨ds ++ frpre, [a, b, c], [d, e, f]⟩, []) := by
  have hsp : isSpaceChar ' ' = true := rfl
  have hde : ds.isEmpty = false := by
    cases ds with
    | nil => exact absurd rfl hd
    | cons x t => rfl
  have hdw1 : (' ' :: a :: b :: c :: ' ' :: s1 :: s2 :: ' ' :: [d, e, f]).dropWhile isSpaceChar
      = a :: b :: c :: ' ' :: s1 :: s2 :: ' ' :: [d, e, f] := by
    simp [List.dropWhile_cons, hsp, not_space_of_alpha ha]
  have hmc1 : matchCode (a :: b :: c :: ' ' :: s1 :: s2 :: ' ' :: [d, e, f])
      = some ([a, b, c], ' ' :: s1 :: s2 :: ' ' :: [d, e, f]) := by
    simp [matchCode, ha, hb, hc]
  have hdw2 : (' ' :: s1 :: s2 :: ' ' :: [d, e, f]).dropWhile isSpaceChar
      = s1 :: s2 :: ' ' :: [d, e, f] := by
    simp [List.dropWhile_cons, hsp, hss1]
  have hdw3 : (' ' :: [d, e, f]).dropWhile isSpaceChar = [d, e, f] := by
    simp [List.dropWhile_cons, hsp, not_space_of_alpha hd2]
  have hmc2 : matchCode [d, e, f] = some ([d, e, f], []) := by
    simp [matchCode, hd2, he, hf]
  unfold matchAt
  rw [ht, hdr, hmf, hde]
  simp only [Bool.false_eq_true, if_false, hdw1, hmc1, hdw2, hmsep, hdw3, hmc2]


/-- The pattern consumes a whole `shapeText` in one match. -/
theorem matchAt_shape (ds : List Char) (ofs : Option (List Char)) (a b c d e f s1 s2 : Char)
    (hds : ds ≠ []) (hdig : ∀ x ∈ ds, isDigitChar x = true)
    (hofs : ∀ fs, ofs = some fs → fs ≠ [] ∧ ∀ x ∈ fs, isDigitChar x = true)
    (halpha : ∀ x ∈ [a, b, c, d, e, f], isAlphaChar x = true)
    (hsep : ((s1 = 't' ∨ s1 = 'T') ∧ (s2 = 'o' ∨ s2 = 'O')) ∨
            ((s1 = 'i' ∨ s1 = 'I') ∧ (s2 = 'n' ∨ s2 = 'N'))) :
    matchAt (shapeText ds ofs a b c d e f s1 s2) =
      some (⟨ds ++ fracPart ofs, [a, b, c], [d, e, f]⟩, []) := by
  have ha : isAlphaChar a = true := halpha a (by simp)
  have hb : isAlphaChar b = true := halpha b (by simp)
  have hc : isAlphaChar c = true := halpha c (by simp)
  have hd2 : isAlphaChar d = true := halpha d (by simp)
  have he : isAlphaChar e = true := halpha e (by simp)
  have hf : isAlphaChar f = true := halpha f (by simp)
  have hss1 : isSpaceChar s1 = false := by
    rcases hsep with ⟨h1, _⟩ | ⟨h1, _⟩ <;> rcases h1 with h | h <;> subst h <;> rfl
  have hmsep : ∀ r : List Char, matchSep (s1 :: s2 :: r) = some r := by
    intro r
    rcases hsep with ⟨h1, h2⟩ | ⟨h1, h2⟩ <;> rcases h1 with h | h <;> rcases h2 with h' | h' <;>
      subst h <;> subst h' <;> rfl
  cases ofs with
  | none =>
    have hparts := takeWhile_all_append (p := isDigitChar) ds ' '
      (a :: b :: c :: ' ' :: s1 :: s2 :: ' ' :: [d, e, f]) hdig rfl
    refine matchAt_of_parts _ ds [] (' ' :: a :: b :: c :: ' ' :: s1 :: s2 :: ' ' :: [d, e, f])
      a b c d e f s1 s2 ?_ hds ?_ ?_ ha hb hc hd2 he hf hss1 hmsep
    · simpa [shapeText, fracPart] using hparts.1
    · simpa [shapeText, fracPart] using hparts.2
    · rfl
  | some fs =>
    obtain ⟨hfs_ne, hfs_dig⟩ := hofs fs rfl
    have hparts := takeWhile_all_append (p := isDigitChar) ds '.'
      (fs ++ ' ' :: a :: b :: c :: ' ' :: s1 :: s2 :: ' ' :: [d, e, f]) hdig rfl
    have hfparts := takeWhile_all_append (p := isDigitChar) fs ' '
      (a :: b :: c :: ' ' :: s1 :: s2 :: ' ' :: [d, e, f]) hfs_dig rfl
    refine matchAt_of_parts _ ds ('.' :: fs)
      ('.' :: (fs ++ ' ' :: a :: b :: c :: ' ' :: s1 :: s2 :: ' ' :: [d, e, f]))
      a b c d e f s1 s2 ?_ hds ?_ ?_ ha hb hc hd2 he hf hss1 hmsep
    · simpa [shapeText, fracPart] using hparts.1
    · simpa [shapeText, fracPart] using hparts.2
    · have hfe : fs.isEmpty = false := by
        cases fs with
        | nil => exact absurd rfl hfs_ne
        | cons x t => rfl
      simp [matchFrac, hfparts.1, hfparts.2, hfe]


/-- C7 (amended): for every text of the shape
`<number> <3-letter-code> <sep> <3-letter-code>` with separator `to` or `in`
in any letter case (`into` is NOT accepted by the orchestrator's pattern, see
the counterexample), the extractor returns exactly one ConversionRequest, its
amount the parsed decimal value and both codes upper-cased. -/
theorem extract_single_shape (ds : List Char) (ofs : Option (List Char))
    (a b c d e f s1 s2 : Char)
    (hds : ds ≠ []) (hdig : ∀ x ∈ ds, isDigitChar x = true)
    (hofs : ∀ fs, ofs = some fs → fs ≠ [] ∧ ∀ x ∈ fs, isDigitChar x = true)
    (halpha : ∀ x ∈ [a, b, c, d, e, f], isAlphaChar x = true)
    (hsep : ((s1 = 't' ∨ s1 = 'T') ∧ (s2 = 'o' ∨ s2 = 'O')) ∨
            ((s1 = 'i' ∨ s1 = 'I') ∧ (s2 = 'n' ∨ s2 = 'N'))) :
    extractConversions (String.mk (shapeText ds ofs a b c d e f s1 s2)) =
      [⟨parseAmount (ds ++ fracPart ofs), upperCode [a, b, c], upperCode [d, e, f]⟩] ∧
    parseAmount (ds ++ fracPart ofs) = (digitsToNat ds : ℚ) + fracVal ofs := by
  constructor
  · have hm := matchAt_shape ds ofs a b c d e f s1 s2 hds hdig hofs halpha hsep
    have htne : shapeText ds ofs a b c d e f s1 s2 ≠ [] := by
      cases ds with
      | nil => exact absurd rfl hds
      | cons x t => simp [shapeText]
    obtain ⟨n, hn⟩ := Nat.exists_eq_succ_of_ne_zero
      (fun h0 => htne (List.length_eq_zero.mp h0))
    unfold extractConversions
    have hq : (String.mk (shapeText ds ofs a b c d e f s1 s2)).data
        = shapeText ds ofs a b c d e f s1 s2 := rfl
    rw [hq, hn, findAll_succ_match hm, findAll_nil]
    rfl
  · cases ofs with
    | none =>
      have hparts := takeWhile_all (p := isDigitChar) ds hdig
      unfold parseAmount
      rw [show ds ++ fracPart none = ds from by simp [fracPart], hparts.1, hparts.2]
      simp [fracVal]
    | some fs =>
      have hparts := takeWhile_all_append (p := isDigitChar) ds '.' fs hdig rfl
      unfold parseAmount
      rw [show ds ++ fracPart (some fs) = ds ++ '.' :: fs from rfl, hparts.1, hparts.2]
      simp [fracVal]


theorem extract_single_shape_witness :
    extractConversions
      (String.mk (shapeText
        ['2', '5', '0'] (some ['7', '5']) 'u' 's' 'd' 'E' 'U' 'R' 'I' 'N')) =
      [⟨parseAmount (['2', '5', '0'] ++ fracPart (some ['7', '5'])),
        upperCode ['u', 's', 'd'], upperCode ['E', 'U', 'R']⟩] ∧
    parseAmount (['2', '5', '0'] ++ fracPart (some ['7', '5'])) =
      (digitsToNat ['2', '5', '0'] : ℚ) + fracVal (some ['7', '5']) :=
  extract_single_shape ['2', '5', '0'] (some ['7', '5']) 'u' 's' 'd' 'E' 'U' 'R' 'I' 'N'
    (by decide) (by decide)
    (fun fs h => by
      injection h with h2
      subst h2
      exact ⟨by decide, by decide⟩)
    (by decide) (by decide)

/-- C7 (counterexample): the separator `into` of the claim is not accepted by
the orchestrator's pattern `(?:to|in)` — after its `in` alternative the
pattern needs three letters but finds "to " — so the shape
"100 USD into EUR" yields no ConversionRequest at all instead of the claimed
single one. -/
theorem extract_into_no_match :
    extractConversions "100 USD into EUR" = [] ∧
    extractConversions "100 USD into EUR" ≠ [⟨100, "USD", "EUR"⟩] := by
  exact ⟨by decide, by decide⟩

end CurrencyAgent
